import Mathlib

/-!
Verification of the quickchat realtime-chat backend: the session registry
(`src/sockets/userSocketManager.js`), the socket event handlers
(`src/sockets/socketHandler.js`), and the message/conversation controllers
(`src/controllers/messageController.js`, `src/controllers/userController.js`).
Identifiers, timestamps and object ids are modelled as `String`/`Nat`; the
Mongo document collections are modelled as association lists keyed by id.
-/

set_option autoImplicit false

namespace QuickChat

abbrev UserId := String
abbrev SocketId := String
abbrev MsgId := String
abbrev ConvId := String

/-! ## Session registry

Modelled from the spec: the multi-socket session registry.  The handler code in
`socketHandler.js` imports `getUserSockets` and calls
`removeUserSocket(userId, socket.id)`, but the multi-handle implementation of
`userSocketManager` is not among the sources (only a legacy single-socket
variant is).  Per the spec: `bind(userId, handle)` registers the handle under
the user and is idempotent if already bound; a handle is associated with
exactly one user for its lifetime; `unbind(handle)` removes the handle from
its owner's set (no-op on an unknown handle, entry removed when the set
empties); `handlesOf(userId)` lists the live handles, empty when offline.
The registry state is the list of live (user, handle) bindings. -/
abbrev RegState := List (UserId × SocketId)

/-- Is some user currently bound to this handle (the reverse index lookup)? -/
def hasHandle (s : RegState) (h : SocketId) : Bool :=
  decide (∃ p ∈ s, p.2 = h)

/-- Modelled from the spec: `bind` / `addUserSocket`.  A handle already bound
(to any user: a handle's owner is set once and immutable) is left alone. -/
def addUserSocket (u : UserId) (h : SocketId) (s : RegState) : RegState :=
  if hasHandle s h then s else (u, h) :: s

/-- Modelled from the spec: `unbind` / `removeUserSocket`: drop the handle from
its owner's set; no-op when the handle is unknown. -/
def removeUserSocket (h : SocketId) (s : RegState) : RegState :=
  s.filter (fun p => p.2 != h)

/-- Modelled from the spec: `handlesOf` / `getUserSockets`. -/
def getUserSockets (u : UserId) (s : RegState) : List SocketId :=
  (s.filter (fun p => p.1 == u)).map (fun p => p.2)

/-- Presence is derived from registry occupancy. -/
def isOnline (u : UserId) (s : RegState) : Bool :=
  !(getUserSockets u s).isEmpty

/-- A registry operation: `bind` on `userConnected`, `unbind` on disconnect. -/
inductive RegOp where
  | bind (u : UserId) (h : SocketId)
  | unbind (h : SocketId)
deriving DecidableEq, Repr

def regStep (s : RegState) : RegOp → RegState
  | .bind u h => addUserSocket u h s
  | .unbind h => removeUserSocket h s

/-- Run a sequence of registry operations from a starting state. -/
def regRun (s : RegState) (ops : List RegOp) : RegState :=
  ops.foldl regStep s

/-- Specification-side liveness of a handle: starting from liveness `b`, a
bind of the handle makes it live and an unbind makes it dead, so the handle is
live after the trace iff its last mention is a bind (it has been bound and not
unbound since). -/
def liveAfter (b : Bool) (h : SocketId) : List RegOp → Bool
  | [] => b
  | .bind _ h2 :: rest => liveAfter (if h2 == h then true else b) h rest
  | .unbind h2 :: rest => liveAfter (if h2 == h then false else b) h rest

/-- A bind respects the owner assignment `ow` (per the data model, a handle
belongs to exactly one user for its lifetime). -/
def opConsistent (ow : SocketId → UserId) : RegOp → Bool
  | .bind u h => u == ow h
  | .unbind _ => true

/-- Every bind in the trace assigns a handle to its designated owner. -/
def bindsConsistent (ow : SocketId → UserId) (ops : List RegOp) : Bool :=
  ops.all (opConsistent ow)

/-- Every live binding in the state respects the owner assignment. -/
def stateConsistent (ow : SocketId → UserId) (s : RegState) : Bool :=
  s.all fun p => p.1 == ow p.2

theorem stateConsistent_mem {ow : SocketId → UserId} {s : RegState}
    (hs : stateConsistent ow s = true) {u : UserId} {h : SocketId}
    (hm : (u, h) ∈ s) : u = ow h := by
  have := List.all_eq_true.mp hs _ hm
  simpa using this

theorem hasHandle_iff {ow : SocketId → UserId} {s : RegState}
    (hs : stateConsistent ow s = true) (h : SocketId) :
    hasHandle s h = true ↔ (ow h, h) ∈ s := by
  simp only [hasHandle, decide_eq_true_eq]
  constructor
  · rintro ⟨⟨a, b⟩, hp, hpe⟩
    cases hpe
    have ha : a = ow b := stateConsistent_mem hs hp
    rwa [ha] at hp
  · intro hm
    exact ⟨(ow h, h), hm, rfl⟩

theorem stateConsistent_step {ow : SocketId → UserId} {s : RegState}
    (hs : stateConsistent ow s = true) {op : RegOp}
    (hop : opConsistent ow op = true) :
    stateConsistent ow (regStep s op) = true := by
  cases op with
  | bind u h =>
    simp only [regStep, addUserSocket]
    split
    · exact hs
    · refine List.all_eq_true.mpr ?_
      intro p hp
      rcases List.mem_cons.mp hp with h1 | h1
      · subst h1; simpa [opConsistent] using hop
      · exact List.all_eq_true.mp hs _ h1
  | unbind h =>
    refine List.all_eq_true.mpr ?_
    intro p hp
    exact List.all_eq_true.mp hs _ (List.mem_of_mem_filter hp)

theorem hasHandle_step_bind (u : UserId) (h2 h : SocketId) (s : RegState) :
    hasHandle (addUserSocket u h2 s) h
      = (if h2 == h then true else hasHandle s h) := by
  simp only [addUserSocket]
  by_cases hl : hasHandle s h2 = true
  · rw [if_pos hl]
    by_cases he : h2 = h
    · subst he; simp [hl]
    · simp [he]
  · rw [if_neg hl]
    by_cases he : h2 = h
    · subst he
      simp only [beq_self_eq_true, if_true, hasHandle, decide_eq_true_eq]
      exact ⟨(u, h2), by simp, rfl⟩
    · have hb : (h2 == h) = false := by simp [he]
      rw [hb]
      simp only [Bool.false_eq_true, if_false, hasHandle, decide_eq_decide]
      constructor
      · rintro ⟨p, hp, hpe⟩
        rcases List.mem_cons.mp hp with h1 | h1
        · subst h1; simp at hpe; exact absurd hpe he
        · exact ⟨p, h1, hpe⟩
      · rintro ⟨p, hp, hpe⟩
        exact ⟨p, List.mem_cons_of_mem _ hp, hpe⟩

theorem hasHandle_step_unbind (h2 h : SocketId) (s : RegState) :
    hasHandle (removeUserSocket h2 s) h
      = (if h2 == h then false else hasHandle s h) := by
  by_cases he : h2 = h
  · subst he
    simp only [beq_self_eq_true, if_true, hasHandle, removeUserSocket,
      decide_eq_false_iff_not]
    rintro ⟨p, hp, hpe⟩
    have hk := (List.mem_filter.mp hp).2
    simp [hpe] at hk
  · have hb : (h2 == h) = false := by simp [he]
    rw [hb]
    simp only [Bool.false_eq_true, if_false, hasHandle, removeUserSocket,
      decide_eq_decide]
    constructor
    · rintro ⟨p, hp, hpe⟩
      exact ⟨p, (List.mem_filter.mp hp).1, hpe⟩
    · rintro ⟨p, hp, hpe⟩
      refine ⟨p, List.mem_filter.mpr ⟨hp, ?_⟩, hpe⟩
      simp only [bne_iff_ne, ne_eq, hpe]
      exact fun hx => he hx.symm

/-- Characterisation of one registry run, generalising over the start state:
a pair is live at the end iff the user owns the handle and the handle's
spec-level liveness (seeded with its start-state liveness) holds. -/
theorem regRun_mem (ow : SocketId → UserId) (ops : List RegOp) (s : RegState)
    (hops : bindsConsistent ow ops = true) (hs : stateConsistent ow s = true)
    (u : UserId) (h : SocketId) :
    ((u, h) ∈ regRun s ops) ↔ (u = ow h ∧ liveAfter (hasHandle s h) h ops = true) := by
  induction ops generalizing s with
  | nil =>
    simp only [regRun, List.foldl_nil, liveAfter]
    constructor
    · intro hm
      have hu : u = ow h := stateConsistent_mem hs hm
      exact ⟨hu, (hasHandle_iff hs h).mpr (hu ▸ hm)⟩
    · rintro ⟨hu, hh⟩
      subst hu
      exact (hasHandle_iff hs h).mp hh
  | cons op rest ih =>
    have hop : opConsistent ow op = true :=
      List.all_eq_true.mp hops op (by simp)
    have hrest : bindsConsistent ow rest = true := by
      refine List.all_eq_true.mpr ?_
      intro x hx
      exact List.all_eq_true.mp hops x (by simp [hx])
    have hs2 : stateConsistent ow (regStep s op) = true :=
      stateConsistent_step hs hop
    have hstep := ih (regStep s op) hrest hs2
    rw [show regRun s (op :: rest) = regRun (regStep s op) rest from rfl, hstep]
    cases op with
    | bind v h2 =>
      rw [show regStep s (.bind v h2) = addUserSocket v h2 s from rfl,
        hasHandle_step_bind v h2 h s]
      exact Iff.rfl
    | unbind h2 =>
      rw [show regStep s (.unbind h2) = removeUserSocket h2 s from rfl,
        hasHandle_step_unbind h2 h s]
      exact Iff.rfl

theorem getUserSockets_mem (u : UserId) (h : SocketId) (s : RegState) :
    h ∈ getUserSockets u s ↔ (u, h) ∈ s := by
  simp only [getUserSockets, List.mem_map, List.mem_filter]
  constructor
  · rintro ⟨⟨a, b⟩, ⟨hp, hu⟩, hh⟩
    have ha : a = u := by simpa using hu
    cases hh
    rwa [ha] at hp
  · intro hm
    exact ⟨(u, h), ⟨hm, by simp⟩, rfl⟩

/-- C1: starting from the empty registry, for every sequence of bind/unbind
operations (with each handle bound only to its one designated owner, per the
data model), `getUserSockets u` contains exactly the handles owned by `u`
that have been bound and not unbound since; and `u` is reported offline
exactly when no such handle remains. -/
theorem userSocketRegistry_correct (ow : SocketId → UserId) (ops : List RegOp)
    (hops : bindsConsistent ow ops = true) (u : UserId) :
    (∀ h : SocketId,
      h ∈ getUserSockets u (regRun [] ops) ↔
        (u = ow h ∧ liveAfter false h ops = true)) ∧
    (isOnline u (regRun [] ops) = false ↔
      ∀ h : SocketId, ¬(u = ow h ∧ liveAfter false h ops = true)) := by
  have hchar : ∀ h : SocketId,
      h ∈ getUserSockets u (regRun [] ops) ↔
        (u = ow h ∧ liveAfter false h ops = true) := by
    intro h
    rw [getUserSockets_mem]
    have := regRun_mem ow ops [] hops (by rfl) u h
    simpa [hasHandle] using this
  refine ⟨hchar, ?_⟩
  constructor
  · intro hoff h hcontra
    have hmem := (hchar h).mpr hcontra
    simp only [isOnline, Bool.not_eq_false', List.isEmpty_iff] at hoff
    rw [hoff] at hmem
    exact (List.not_mem_nil h) hmem
  · intro hall
    simp only [isOnline, Bool.not_eq_false', List.isEmpty_iff]
    cases hgl : getUserSockets u (regRun [] ops) with
    | nil => rfl
    | cons x xs =>
      exfalso
      have hx : x ∈ getUserSockets u (regRun [] ops) := by
        rw [hgl]; exact List.mem_cons_self x xs
      exact hall x ((hchar x).mp hx)

/-- Concrete owner map for the registry witness scenario. -/
def regOwnerW : SocketId → UserId := fun _ => "u"

/-- Concrete trace: bind two handles for `u`, then unbind the first. -/
def regOpsW : List RegOp := [.bind "u" "h1", .bind "u" "h2", .unbind "h1"]

/-- Witness for C1: instantiating the registry theorem on a concrete trace,
plus the concrete multi-device scenario: binding `h1` and `h2` registers both;
unbinding `h1` leaves exactly `h2`; unbinding `h2` as well takes `u` offline. -/
theorem userSocketRegistry_correct_witness :
    ((∀ h : SocketId,
        h ∈ getUserSockets "u" (regRun [] regOpsW) ↔
          ("u" = regOwnerW h ∧ liveAfter false h regOpsW = true)) ∧
      (isOnline "u" (regRun [] regOpsW) = false ↔
        ∀ h : SocketId, ¬("u" = regOwnerW h ∧ liveAfter false h regOpsW = true))) ∧
    getUserSockets "u" (regRun [] [.bind "u" "h1", .bind "u" "h2"]) = ["h2", "h1"] ∧
    getUserSockets "u" (regRun [] regOpsW) = ["h2"] ∧
    isOnline "u" (regRun [] (regOpsW ++ [.unbind "h2"])) = false :=
  ⟨userSocketRegistry_correct regOwnerW regOpsW (by decide) "u",
   by decide, by decide, by decide⟩

/-! ## Documents

`Msg` mirrors `src/models/Message.js` (ids and object refs as strings,
timestamps as `Nat`); `Conv` mirrors the conversation schema with the
`visibleTo` / `initiatedBy` fields used by the controllers. -/

structure Msg where
  sender : UserId
  conversation : ConvId
  receiver : Option UserId
  content : String
  image : Option String
  fileRef : Option String
  fileName : Option String
  fileSize : Option Nat
  fileType : Option String
  delivered : Bool
  deliveredAt : Option Nat
  seen : Bool
  seenAt : Option Nat
  seenBy : List (UserId × Nat)
  isEphemeral : Bool
  ephemeralViewed : Bool
deriving DecidableEq, Repr

structure Conv where
  participants : List UserId
  isGroupChat : Bool
  groupName : Option String
  groupImage : Option String
  lastMessage : Option MsgId
  lastActivity : Nat
  visibleTo : List UserId
  initiatedBy : Option UserId
deriving DecidableEq, Repr

/-- The message collection: an association list of (id, document). -/
abbrev MsgDb := List (MsgId × Msg)

/-! ## Delivery state machine -/

/-- One document's view of the `messageDelivered` updateMany
(`socketHandler.js`): the filter is `_id ∈ messageIds`,
`conversation = conversationId`, `delivered = false`; the update sets
`delivered := true` and `deliveredAt := now`. -/
def deliverOne (cid : ConvId) (ids : List MsgId) (now : Nat)
    (e : MsgId × Msg) : MsgId × Msg :=
  if e.1 ∈ ids ∧ e.2.conversation = cid ∧ e.2.delivered = false then
    (e.1, { e.2 with delivered := true, deliveredAt := some now })
  else e

/-- The persisted effect of the `messageDelivered` handler. -/
def markDeliveredUpdate (cid : ConvId) (ids : List MsgId) (now : Nat)
    (db : MsgDb) : MsgDb :=
  db.map (deliverOne cid ids now)

/-- The `Message.find` the handler performs after the update: messages in the
id set and the conversation with `delivered = true`, excluding those sent by
the acknowledging user; the handler groups these by sender and emits the id
list to every socket of each sender.  Modelled as the flat list of
(sender, messageId) notification pairs in database order. -/
def deliveredNotifications (cid : ConvId) (ids : List MsgId) (ack : UserId)
    (db : MsgDb) : List (UserId × MsgId) :=
  (db.filter (fun e =>
      decide (e.1 ∈ ids ∧ e.2.conversation = cid ∧ e.2.delivered = true ∧
        e.2.sender ≠ ack))).map
    (fun e => (e.2.sender, e.1))

/-- The whole `messageDelivered` socket handler: returns the updated
collection and the emitted sender notifications. -/
def messageDeliveredStep (cid : ConvId) (ids : List MsgId) (ack : UserId)
    (now : Nat) (db : MsgDb) : MsgDb × List (UserId × MsgId) :=
  let db2 := markDeliveredUpdate cid ids now db
  (db2, deliveredNotifications cid ids ack db2)

theorem deliverOne_idem (cid : ConvId) (ids : List MsgId) (t1 t2 : Nat)
    (e : MsgId × Msg) :
    deliverOne cid ids t2 (deliverOne cid ids t1 e) = deliverOne cid ids t1 e := by
  by_cases h : e.1 ∈ ids ∧ e.2.conversation = cid ∧ e.2.delivered = false
  · simp [deliverOne, h]
  · simp [deliverOne, h]

/-- C3 (amended): applying the `messageDelivered` handler a second time with
the same conversation and id set leaves the persisted collection exactly as
after the first application, but the second application emits the same sender
notifications again (the affected-set is the first one re-sent, not empty). -/
theorem messageDelivered_second_application (cid : ConvId) (ids : List MsgId)
    (ack : UserId) (t1 t2 : Nat) (db : MsgDb) :
    (messageDeliveredStep cid ids ack t2 (messageDeliveredStep cid ids ack t1 db).1).1
      = (messageDeliveredStep cid ids ack t1 db).1 ∧
    (messageDeliveredStep cid ids ack t2 (messageDeliveredStep cid ids ack t1 db).1).2
      = (messageDeliveredStep cid ids ack t1 db).2 := by
  have hdb : markDeliveredUpdate cid ids t2 (markDeliveredUpdate cid ids t1 db)
      = markDeliveredUpdate cid ids t1 db := by
    simp only [markDeliveredUpdate, List.map_map]
    apply List.map_congr_left
    intro e _
    exact deliverOne_idem cid ids t1 t2 e
  constructor
  · simpa [messageDeliveredStep, markDeliveredUpdate] using hdb
  · simp only [messageDeliveredStep]
    rw [show markDeliveredUpdate cid ids t2 (markDeliveredUpdate cid ids t1 db)
      = markDeliveredUpdate cid ids t1 db from hdb]

/-- A freshly sent direct-chat message from "A" to "B" in conversation "c". -/
def baseMsg : Msg :=
  { sender := "A", conversation := "c", receiver := some "B", content := "hi",
    image := none, fileRef := none, fileName := none, fileSize := none,
    fileType := none, delivered := false, deliveredAt := none, seen := false,
    seenAt := none, seenBy := [], isEphemeral := false, ephemeralViewed := false }

/-- Counterexample to C3 as stated: on a one-message database the second
application of `messageDelivered` does not yield an empty affected-set — it
re-emits the notification for the already-delivered message to its sender. -/
theorem messageDelivered_second_not_empty :
    (messageDeliveredStep "c" ["m1"] "B" 2
        (messageDeliveredStep "c" ["m1"] "B" 1 [("m1", baseMsg)]).1).2
      = [("A", "m1")] ∧
    (messageDeliveredStep "c" ["m1"] "B" 2
        (messageDeliveredStep "c" ["m1"] "B" 1 [("m1", baseMsg)]).1).2 ≠ [] := by
  constructor
  · decide
  · decide

/-- C10: the `messageDelivered` updateMany touches only the `delivered` and
`deliveredAt` fields of a document, and a document outside the id set or
outside the conversation is entirely unchanged; the handler's persisted effect
is exactly this per-document update mapped over the collection. -/
theorem messageDelivered_frame (cid : ConvId) (ids : List MsgId) (now : Nat)
    (e : MsgId × Msg) :
    ((deliverOne cid ids now e).1 = e.1 ∧
     (deliverOne cid ids now e).2.sender = e.2.sender ∧
     (deliverOne cid ids now e).2.conversation = e.2.conversation ∧
     (deliverOne cid ids now e).2.receiver = e.2.receiver ∧
     (deliverOne cid ids now e).2.content = e.2.content ∧
     (deliverOne cid ids now e).2.image = e.2.image ∧
     (deliverOne cid ids now e).2.fileRef = e.2.fileRef ∧
     (deliverOne cid ids now e).2.fileName = e.2.fileName ∧
     (deliverOne cid ids now e).2.fileSize = e.2.fileSize ∧
     (deliverOne cid ids now e).2.fileType = e.2.fileType ∧
     (deliverOne cid ids now e).2.seen = e.2.seen ∧
     (deliverOne cid ids now e).2.seenAt = e.2.seenAt ∧
     (deliverOne cid ids now e).2.seenBy = e.2.seenBy ∧
     (deliverOne cid ids now e).2.isEphemeral = e.2.isEphemeral ∧
     (deliverOne cid ids now e).2.ephemeralViewed = e.2.ephemeralViewed) ∧
    (e.1 ∉ ids ∨ e.2.conversation ≠ cid → deliverOne cid ids now e = e) ∧
    (∀ db : MsgDb, markDeliveredUpdate cid ids now db = db.map (deliverOne cid ids now)) := by
  refine ⟨?_, ?_, fun _ => rfl⟩
  · by_cases h : e.1 ∈ ids ∧ e.2.conversation = cid ∧ e.2.delivered = false
    · simp [deliverOne, h]
    · simp [deliverOne, h]
  · intro hout
    have h : ¬(e.1 ∈ ids ∧ e.2.conversation = cid ∧ e.2.delivered = false) := by
      rcases hout with h1 | h1
      · exact fun hc => h1 hc.1
      · exact fun hc => h1 hc.2.1
    simp [deliverOne, h]

/-- Witness for C10: a message outside the id set is returned unchanged, and
for a targeted message the sender field (for instance) is preserved. -/
theorem messageDelivered_frame_witness :
    deliverOne "c" ["m1"] 5 ("m2", baseMsg) = ("m2", baseMsg) ∧
    (deliverOne "c" ["m1"] 5 ("m1", baseMsg)).2.sender = baseMsg.sender ∧
    (deliverOne "c" ["m1"] 5 ("m1", baseMsg)).2.seen = baseMsg.seen :=
  ⟨(messageDelivered_frame "c" ["m1"] 5 ("m2", baseMsg)).2.1 (by decide),
   (messageDelivered_frame "c" ["m1"] 5 ("m1", baseMsg)).1.2.1,
   (messageDelivered_frame "c" ["m1"] 5 ("m1", baseMsg)).1.2.2.2.2.2.2.2.2.2.2.1⟩

/-! ## Seen transitions -/

/-- Mongo `$addToSet` on the `seenBy` array: the element is appended unless
the exact (user, timestamp) subdocument is already present. -/
def addToSet (l : List (UserId × Nat)) (x : UserId × Nat) : List (UserId × Nat) :=
  if x ∈ l then l else l ++ [x]

/-- One document's view of the socket `messageSeen` updateMany
(`socketHandler.js`): filter `_id ∈ messageIds`, `conversation = cid`,
`seen = false`; update sets `seen := true`, `delivered := true`,
`seenAt := now` and `$addToSet`s `(viewer, now)` into `seenBy`. -/
def seenOne (cid : ConvId) (ids : List MsgId) (viewer : UserId) (now : Nat)
    (e : MsgId × Msg) : MsgId × Msg :=
  if e.1 ∈ ids ∧ e.2.conversation = cid ∧ e.2.seen = false then
    (e.1, { e.2 with
      seen := true
      delivered := true
      seenAt := some now
      seenBy := addToSet e.2.seenBy (viewer, now) })
  else e

/-- The persisted effect of the socket `messageSeen` handler. -/
def markSeenUpdate (cid : ConvId) (ids : List MsgId) (viewer : UserId)
    (now : Nat) (db : MsgDb) : MsgDb :=
  db.map (seenOne cid ids viewer now)

/-- One document's view of the REST `markMessagesAsSeen` updateMany
(`messageController.js`): filter `conversation = cid`, optionally
`_id ∈ messageIds` (an absent or empty id list means no id filter) and
`sender ≠ caller`.  Group chats `$addToSet` `(caller, now)` into `seenBy`
(and touch nothing else); direct chats set `seen := true`, `seenAt := now`
(note: `delivered` is not touched on this path). -/
def restSeenOne (isGroup : Bool) (cid : ConvId) (ids : List MsgId)
    (caller : UserId) (now : Nat) (e : MsgId × Msg) : MsgId × Msg :=
  if e.2.conversation = cid ∧ (ids = [] ∨ e.1 ∈ ids) ∧ e.2.sender ≠ caller then
    if isGroup then
      (e.1, { e.2 with seenBy := addToSet e.2.seenBy (caller, now) })
    else
      (e.1, { e.2 with seen := true, seenAt := some now })
  else e

/-- The persisted effect of the REST `markMessagesAsSeen` controller. -/
def markMessagesAsSeen (isGroup : Bool) (cid : ConvId) (ids : List MsgId)
    (caller : UserId) (now : Nat) (db : MsgDb) : MsgDb :=
  db.map (restSeenOne isGroup cid ids caller now)

/-- C2 (failing input): a fresh undelivered direct-chat message seen through
the REST `markMessagesAsSeen` path ends up with `seen = true` but
`delivered = false`, breaking the seen-implies-delivered invariant (the
direct-chat branch omits the `delivered := true` write that the socket
`messageSeen` handler performs). -/
theorem restSeen_breaks_seen_implies_delivered :
    baseMsg.seen = false ∧ baseMsg.delivered = false ∧
    (restSeenOne false "c" [] "B" 5 ("m1", baseMsg)).2.seen = true ∧
    (restSeenOne false "c" [] "B" 5 ("m1", baseMsg)).2.delivered = false ∧
    (seenOne "c" ["m1"] "B" 5 ("m1", baseMsg)).2.seen = true ∧
    (seenOne "c" ["m1"] "B" 5 ("m1", baseMsg)).2.delivered = true := by
  decide

/-- A fresh message in the group conversation "g". -/
def groupMsg : Msg :=
  { baseMsg with conversation := "g", receiver := none }

/-- C4 (failing input): in a group chat, the same user marking the same
message seen twice through the REST path at two different timestamps yields
two `seenBy` entries for that user: `$addToSet` compares the whole
(user, seenAt) subdocument and the timestamps differ, so the second event is
not a no-op. -/
theorem restSeen_duplicates_seenBy :
    (restSeenOne true "g" [] "B" 2
        (restSeenOne true "g" [] "B" 1 ("m1", groupMsg))).2.seenBy
      = [("B", 1), ("B", 2)] ∧
    ((restSeenOne true "g" [] "B" 2
        (restSeenOne true "g" [] "B" 1 ("m1", groupMsg))).2.seenBy.filter
      (fun p => p.1 == "B")).length = 2 ∧
    ¬ ((restSeenOne true "g" [] "B" 2
        (restSeenOne true "g" [] "B" 1 ("m1", groupMsg))).2.seenBy.map
      Prod.fst).Nodup := by
  refine ⟨by decide, by decide, by decide⟩

/-! ## Ephemeral view (`markEphemeralAsViewed`, messageController.js) -/

/-- Outcome of `markEphemeralAsViewed`, in the order the controller checks. -/
inductive EphStatus where
  | accessDenied
  | notReceiver
  | notEphemeral
  | alreadyViewed
  | markedViewed
deriving DecidableEq, Repr

/-- The HTTP status each outcome is returned with. -/
def ephHttpStatus : EphStatus → Nat
  | .accessDenied => 403
  | .notReceiver => 403
  | .notEphemeral => 400
  | .alreadyViewed => 200
  | .markedViewed => 200

/-- `markEphemeralAsViewed` on a found message `m` whose conversation is
`conv`: deny non-participants (the participant-scoped findOne misses);
in a non-group conversation with a designated `receiver`, deny any caller
other than that receiver; reject non-ephemeral messages with a validation
error; report already-viewed ones; otherwise set `ephemeralViewed` and clear
the image. -/
def markEphemeralAsViewed (caller : UserId) (conv : Conv) (m : Msg) :
    EphStatus × Msg :=
  if caller ∉ conv.participants then (.accessDenied, m)
  else if conv.isGroupChat = false ∧ m.receiver ≠ none ∧ m.receiver ≠ some caller then
    (.notReceiver, m)
  else if m.isEphemeral = false then (.notEphemeral, m)
  else if m.ephemeralViewed then (.alreadyViewed, m)
  else (.markedViewed, { m with ephemeralViewed := true, image := none })

/-- C8: for an authorised caller, marking a non-ephemeral message as viewed
fails with the 400 validation error and leaves the message unchanged; on an
unviewed ephemeral message the first call succeeds (200), sets
`ephemeralViewed` and clears the image, and a second call succeeds (200)
reporting already-viewed while changing nothing. -/
theorem markEphemeral_validation_and_idem (caller : UserId) (conv : Conv)
    (m : Msg) (hp : caller ∈ conv.participants)
    (hr : conv.isGroupChat = true ∨ m.receiver = none ∨ m.receiver = some caller) :
    (m.isEphemeral = false →
      markEphemeralAsViewed caller conv m = (.notEphemeral, m) ∧
      ephHttpStatus (markEphemeralAsViewed caller conv m).1 = 400) ∧
    (m.isEphemeral = true → m.ephemeralViewed = false →
      (markEphemeralAsViewed caller conv m).1 = .markedViewed ∧
      ephHttpStatus (markEphemeralAsViewed caller conv m).1 = 200 ∧
      (markEphemeralAsViewed caller conv m).2.image = none ∧
      (markEphemeralAsViewed caller conv m).2.ephemeralViewed = true ∧
      markEphemeralAsViewed caller conv (markEphemeralAsViewed caller conv m).2
        = (.alreadyViewed, (markEphemeralAsViewed caller conv m).2) ∧
      ephHttpStatus EphStatus.alreadyViewed = 200) := by
  have hnr : ¬(conv.isGroupChat = false ∧ m.receiver ≠ none ∧ m.receiver ≠ some caller) := by
    rcases hr with h1 | h1 | h1
    · rintro ⟨h2, -, -⟩; rw [h1] at h2; exact Bool.true_eq_false.mp h2
    · rintro ⟨-, h2, -⟩; exact h2 h1
    · rintro ⟨-, -, h2⟩; exact h2 h1
  constructor
  · intro hne
    simp [markEphemeralAsViewed, ephHttpStatus, hp, hnr, hne]
  · intro he hv
    have h1 : markEphemeralAsViewed caller conv m
        = (.markedViewed, { m with ephemeralViewed := true, image := none }) := by
      simp [markEphemeralAsViewed, hp, hnr, he, hv]
    rw [h1]
    refine ⟨rfl, rfl, rfl, rfl, ?_, rfl⟩
    simp [markEphemeralAsViewed, hp, he, hnr]

/-- Direct conversation between "A" and "B". -/
def directConvW : Conv :=
  { participants := ["A", "B"], isGroupChat := false, groupName := none,
    groupImage := none, lastMessage := none, lastActivity := 0,
    visibleTo := ["A", "B"], initiatedBy := some "A" }

/-- An unviewed ephemeral photo message from "A" to "B". -/
def ephMsgW : Msg :=
  { baseMsg with image := some "/uploads/p.jpg", isEphemeral := true }

/-- Witness for C8: instantiated with the designated receiver "B" on a
concrete non-ephemeral message and a concrete unviewed ephemeral one. -/
theorem markEphemeral_validation_and_idem_witness :
    (markEphemeralAsViewed "B" directConvW baseMsg = (.notEphemeral, baseMsg)) ∧
    ((markEphemeralAsViewed "B" directConvW ephMsgW).1 = .markedViewed) ∧
    ((markEphemeralAsViewed "B" directConvW ephMsgW).2.image = none) ∧
    (markEphemeralAsViewed "B" directConvW
        (markEphemeralAsViewed "B" directConvW ephMsgW).2
      = (.alreadyViewed, (markEphemeralAsViewed "B" directConvW ephMsgW).2)) :=
  ⟨((markEphemeral_validation_and_idem "B" directConvW baseMsg (by decide)
      (by decide)).1 (by decide)).1,
   ((markEphemeral_validation_and_idem "B" directConvW ephMsgW (by decide)
      (by decide)).2 (by decide) (by decide)).1,
   ((markEphemeral_validation_and_idem "B" directConvW ephMsgW (by decide)
      (by decide)).2 (by decide) (by decide)).2.2.1,
   ((markEphemeral_validation_and_idem "B" directConvW ephMsgW (by decide)
      (by decide)).2 (by decide) (by decide)).2.2.2.2.1⟩

/-- Group conversation "g" between "A" and "B". -/
def groupConvW : Conv :=
  { participants := ["A", "B"], isGroupChat := true, groupName := some "grp",
    groupImage := none, lastMessage := none, lastActivity := 0,
    visibleTo := ["A", "B"], initiatedBy := some "A" }

/-- An unviewed ephemeral message sent by "A" into the group "g". -/
def groupEphMsgW : Msg :=
  { groupMsg with image := some "/uploads/p.jpg", isEphemeral := true }

/-- Counterexample to C9 as stated: in a group conversation the controller
never checks the sender, so the sender "A" of the ephemeral message is
permitted to mark it viewed (200, state transition performed) — it is not
true that only non-sender participants are permitted. -/
theorem markEphemeral_group_sender_allowed :
    groupEphMsgW.sender = "A" ∧ groupConvW.isGroupChat = true ∧
    "A" ∈ groupConvW.participants ∧
    (markEphemeralAsViewed "A" groupConvW groupEphMsgW).1 = .markedViewed ∧
    ephHttpStatus (markEphemeralAsViewed "A" groupConvW groupEphMsgW).1 = 200 ∧
    (markEphemeralAsViewed "A" groupConvW groupEphMsgW).2.ephemeralViewed = true := by
  refine ⟨rfl, rfl, by decide, by decide, by decide, by decide⟩

/-- C9 (amended): a non-participant caller is always denied with the message
unchanged; in a non-group conversation with a designated receiver, any caller
other than that receiver is denied with the message unchanged; in a group
conversation every participant — including the sender — passes the actor
checks (an unviewed ephemeral message is marked viewed). -/
theorem markEphemeral_actor_policy (caller : UserId) (conv : Conv) (m : Msg) :
    (caller ∉ conv.participants →
      markEphemeralAsViewed caller conv m = (.accessDenied, m) ∧
      ephHttpStatus EphStatus.accessDenied = 403) ∧
    (caller ∈ conv.participants → conv.isGroupChat = false →
      ∀ r : UserId, m.receiver = some r → r ≠ caller →
        markEphemeralAsViewed caller conv m = (.notReceiver, m) ∧
        ephHttpStatus EphStatus.notReceiver = 403) ∧
    (caller ∈ conv.participants → conv.isGroupChat = true →
      m.isEphemeral = true → m.ephemeralViewed = false →
        (markEphemeralAsViewed caller conv m).1 = .markedViewed) := by
  refine ⟨?_, ?_, ?_⟩
  · intro hnp
    exact ⟨by simp [markEphemeralAsViewed, hnp], rfl⟩
  · intro hp hg r hrec hne
    refine ⟨?_, rfl⟩
    have hcond : conv.isGroupChat = false ∧ m.receiver ≠ none ∧ m.receiver ≠ some caller := by
      refine ⟨hg, by simp [hrec], ?_⟩
      rw [hrec]
      intro hx
      exact hne (Option.some.inj hx)
    simp [markEphemeralAsViewed, hp, hcond]
  · intro hp hg he hv
    have hnr : ¬(conv.isGroupChat = false ∧ m.receiver ≠ none ∧ m.receiver ≠ some caller) := by
      rintro ⟨h2, -, -⟩; rw [hg] at h2; exact Bool.true_eq_false.mp h2
    simp [markEphemeralAsViewed, hp, hnr, he, hv]

/-- Witness for the amended C9: the outsider "Z" is denied, "A" (not the
designated receiver "B") is denied on the direct message, and the group
participant "B" is permitted. -/
theorem markEphemeral_actor_policy_witness :
    (markEphemeralAsViewed "Z" directConvW ephMsgW = (.accessDenied, ephMsgW)) ∧
    (markEphemeralAsViewed "A" directConvW ephMsgW = (.notReceiver, ephMsgW)) ∧
    ((markEphemeralAsViewed "B" groupConvW groupEphMsgW).1 = .markedViewed) :=
  ⟨((markEphemeral_actor_policy "Z" directConvW ephMsgW).1 (by decide)).1,
   ((markEphemeral_actor_policy "A" directConvW ephMsgW).2.1 (by decide) rfl "B"
      rfl (by decide)).1,
   (markEphemeral_actor_policy "B" groupConvW groupEphMsgW).2.2 (by decide) rfl
      rfl rfl⟩

/-! ## Conversation creation and the visibility transition -/

/-- The `conversationData` built by `createConversation`
(`userController.js`): only the initiator is in `visibleTo`. -/
def createConversationDoc (userId : UserId) (participants : List UserId)
    (isGroupChat : Bool) (groupName : Option String) : Conv :=
  { participants := participants
    isGroupChat := isGroupChat
    groupName := if isGroupChat then groupName else none
    groupImage := none
    lastMessage := none
    lastActivity := 0
    visibleTo := [userId]
    initiatedBy := some userId }

/-- The direct conversation `sendMessage` creates implicitly when the sender
names a receiver and none exists (`messageController.js` 62-68): it is made
visible to both users immediately. -/
def implicitDirectConversation (senderId receiver : UserId) : Conv :=
  { participants := [senderId, receiver]
    isGroupChat := false
    groupName := none
    groupImage := none
    lastMessage := none
    lastActivity := 0
    visibleTo := [senderId, receiver]
    initiatedBy := none }

/-- The `messageData` persisted by `sendMessage` combined with the
`Message.js` schema defaults: `delivered` and `seen` are not set by the
controller and default to `false`, `seenBy` to `[]`. -/
def newMessageDoc (senderId : UserId) (convId : ConvId)
    (receiver : Option UserId) (content : Option String)
    (image fileUrl fname ftype : Option String) (fsize : Option Nat)
    (isEphemeral : Bool) : Msg :=
  { sender := senderId
    conversation := convId
    receiver := receiver
    content := content.getD ""
    image := image
    fileRef := fileUrl
    fileName := fname
    fileSize := fsize
    fileType := ftype
    delivered := false
    deliveredAt := none
    seen := false
    seenAt := none
    seenBy := []
    isEphemeral := isEphemeral
    ephemeralViewed := false }

/-- Counterexample to C6 as stated: the implicitly created conversation is
not visible only to the sender — `visibleTo` holds both participants. -/
theorem sendMessage_implicit_visibleTo_not_initiator_only :
    (implicitDirectConversation "A" "B").visibleTo ≠ ["A"] ∧
    (implicitDirectConversation "A" "B").visibleTo = ["A", "B"] := by
  refine ⟨by decide, rfl⟩

/-- C6 (amended): for a never-messaged pair the conversation is created with
`visibleTo = {A, B}` (both participants, immediately), and the new message is
persisted with `delivered = false` and `seen = false`. -/
theorem sendMessage_implicit_creation (A B : UserId) (cid : ConvId)
    (content : Option String) (eph : Bool) :
    (implicitDirectConversation A B).participants = [A, B] ∧
    (implicitDirectConversation A B).isGroupChat = false ∧
    (implicitDirectConversation A B).visibleTo = [A, B] ∧
    (newMessageDoc A cid (some B) content none none none none none eph).delivered
      = false ∧
    (newMessageDoc A cid (some B) content none none none none none eph).seen
      = false ∧
    (newMessageDoc A cid (some B) content none none none none none eph).seenBy
      = [] :=
  ⟨rfl, rfl, rfl, rfl, rfl, rfl⟩

/-- First-occurrence deduplication, as the controller's
`[...new Set([...currentVisibleTo, ...allParticipants])]`. -/
def dedupFirst (l : List UserId) : List UserId :=
  l.foldl (fun acc x => if x ∈ acc then acc else acc ++ [x]) []

/-- The participants that could not see the conversation before the send
(`newlyVisibleUsers` in the controller). -/
def newlyVisibleUsers (conv : Conv) : List UserId :=
  conv.participants.filter (fun p => decide (p ∉ conv.visibleTo))

/-- Result of the visibility-transition fragment of `sendMessage`
(`messageController.js` 175-232): the persisted `visibleTo`, the direct
`newConversationVisible` emits as (socket, targeted user) pairs, the
`conversationId` value those payloads carry, the sockets passed to
`socket.join`, and the room argument of each join.  The controller uses the
raw `conversationId` destructured from the request body for both the payload
and the join — not the found conversation's own id — so both are `none`
when the send was addressed by `receiver` instead of by conversation id. -/
structure VisResult where
  visibleTo : List UserId
  notified : List (SocketId × UserId)
  payloadCid : Option ConvId
  joined : List SocketId
  joinRoom : Option ConvId
deriving DecidableEq, Repr

/-- The visibility transition: every participant missing from `visibleTo` is
added (persisted), and each of their live sockets — obtained from the session
registry's `getUserSockets` — receives one `newConversationVisible` emit and
one `socket.join(conversationId)` call, where `requestCid` is the request
body's raw `conversationId` field.  A newly visible user with no live sockets
gets no emit. -/
def visibilityTransition (conv : Conv) (requestCid : Option ConvId)
    (handlesOf : UserId → List SocketId) : VisResult :=
  let newly := newlyVisibleUsers conv
  { visibleTo := dedupFirst (conv.visibleTo ++ conv.participants)
    notified := newly.flatMap (fun u => (handlesOf u).map (fun h => (h, u)))
    payloadCid := requestCid
    joined := newly.flatMap (fun u => handlesOf u)
    joinRoom := requestCid }

/-- Registry snapshot for the C5 scenario: "B" has two live sockets,
everyone else (in particular "A") none. -/
def handlesOfW : UserId → List SocketId :=
  fun u => if u = "B" then ["hB1", "hB2"] else []

/-- C5 (failing input): "A" creates a direct conversation with "B" through
`createConversation` (`visibleTo = {A}`, conversation id "c1"); "A" then sends
the first message addressed by `receiver`, so the request body carries no
`conversationId` (`requestCid = none`); "B" is online with sockets hB1, hB2.
The transition persists `visibleTo = {A, B}` and emits exactly one
`newConversationVisible` on each of "B"'s sockets, but the room join uses the
raw request `conversationId`: the join room is `none`, not the conversation's
room "c1", and the notification payload names no conversation.  The same send
addressed by conversation id (`requestCid = some "c1"`) does join "c1". -/
theorem sendMessage_visibility_join_misses_room :
    (createConversationDoc "A" ["A", "B"] false none).visibleTo = ["A"] ∧
    newlyVisibleUsers (createConversationDoc "A" ["A", "B"] false none) = ["B"] ∧
    (visibilityTransition (createConversationDoc "A" ["A", "B"] false none)
        none handlesOfW).visibleTo = ["A", "B"] ∧
    (visibilityTransition (createConversationDoc "A" ["A", "B"] false none)
        none handlesOfW).notified.count ("hB1", "B") = 1 ∧
    (visibilityTransition (createConversationDoc "A" ["A", "B"] false none)
        none handlesOfW).notified.count ("hB2", "B") = 1 ∧
    (visibilityTransition (createConversationDoc "A" ["A", "B"] false none)
        none handlesOfW).joined = ["hB1", "hB2"] ∧
    (visibilityTransition (createConversationDoc "A" ["A", "B"] false none)
        none handlesOfW).joinRoom = none ∧
    (visibilityTransition (createConversationDoc "A" ["A", "B"] false none)
        none handlesOfW).joinRoom ≠ some "c1" ∧
    (visibilityTransition (createConversationDoc "A" ["A", "B"] false none)
        none handlesOfW).payloadCid = none ∧
    (visibilityTransition (createConversationDoc "A" ["A", "B"] false none)
        (some "c1") handlesOfW).joinRoom = some "c1" := by
  decide

/-! ## Socket `sendMessage` broadcast (`socketHandler.js` 551-584) -/

/-- The three outbound events of the socket `sendMessage` handler. -/
inductive OutEvent where
  | messageReceived
  | conversationUpdated
  | globalUpdate
deriving DecidableEq, Repr

/-- The socket `sendMessage` handler's emissions, as (event, target socket)
pairs in code order.  `rooms` maps a conversation id to the sockets currently
joined to its room, `allSockets` is every connected socket, `senderSock` is
the emitting socket.  A payload missing `sender` or `conversationId` is
dropped.  `socket.to(room)` reaches the room members except the emitting
socket; `io.to(room)` reaches every room member; `io.emit` reaches every
connected socket. -/
def sendMessageEmits (senderSock : SocketId) (rooms : ConvId → List SocketId)
    (allSockets : List SocketId) (sender : Option UserId)
    (conversationId : Option ConvId) : List (OutEvent × SocketId) :=
  match sender, conversationId with
  | some _, some cid =>
    ((rooms cid).filter (fun s => s != senderSock)).map
        (fun s => (OutEvent.messageReceived, s))
      ++ (rooms cid).map (fun s => (OutEvent.conversationUpdated, s))
      ++ allSockets.map (fun s => (OutEvent.globalUpdate, s))
  | _, _ => []

/-- C7: for a valid `sendMessage` event, the message payload reaches exactly
the room's sockets other than the emitting one, the conversation-list-refresh
event reaches exactly every socket in the room (the sender's included), and
the global-refresh signal reaches exactly every connected socket; an invalid
payload emits nothing. -/
theorem sendMessage_broadcast (senderSock : SocketId)
    (rooms : ConvId → List SocketId) (allSockets : List SocketId)
    (sender : UserId) (cid : ConvId) :
    (∀ s : SocketId,
      (OutEvent.messageReceived, s) ∈
          sendMessageEmits senderSock rooms allSockets (some sender) (some cid) ↔
        (s ∈ rooms cid ∧ s ≠ senderSock)) ∧
    (∀ s : SocketId,
      (OutEvent.conversationUpdated, s) ∈
          sendMessageEmits senderSock rooms allSockets (some sender) (some cid) ↔
        s ∈ rooms cid) ∧
    (∀ s : SocketId,
      (OutEvent.globalUpdate, s) ∈
          sendMessageEmits senderSock rooms allSockets (some sender) (some cid) ↔
        s ∈ allSockets) ∧
    sendMessageEmits senderSock rooms allSockets none (some cid) = [] ∧
    sendMessageEmits senderSock rooms allSockets (some sender) none = [] := by
  refine ⟨?_, ?_, ?_, rfl, rfl⟩
  · intro s
    simp only [sendMessageEmits, List.mem_append, List.mem_map, List.mem_filter]
    constructor
    · rintro ((⟨x, ⟨hx, hxs⟩, hxe⟩ | ⟨x, hx, hxe⟩) | ⟨x, hx, hxe⟩)
      · cases hxe
        exact ⟨hx, by simpa using hxs⟩
      · cases hxe
      · cases hxe
    · rintro ⟨hs, hne⟩
      exact Or.inl (Or.inl ⟨s, ⟨hs, by simpa using hne⟩, rfl⟩)
  · intro s
    simp only [sendMessageEmits, List.mem_append, List.mem_map, List.mem_filter]
    constructor
    · rintro ((⟨x, ⟨hx, hxs⟩, hxe⟩ | ⟨x, hx, hxe⟩) | ⟨x, hx, hxe⟩)
      · cases hxe
      · cases hxe
        exact hx
      · cases hxe
    · intro hs
      exact Or.inl (Or.inr ⟨s, hs, rfl⟩)
  · intro s
    simp only [sendMessageEmits, List.mem_append, List.mem_map, List.mem_filter]
    constructor
    · rintro ((⟨x, ⟨hx, hxs⟩, hxe⟩ | ⟨x, hx, hxe⟩) | ⟨x, hx, hxe⟩)
      · cases hxe
      · cases hxe
      · cases hxe
        exact hx
    · intro hs
      exact Or.inr ⟨s, hs, rfl⟩

end QuickChat
